import Mathlib

/-!
Verification of the body-transformation engine of `html_footer.py`
(`zarath/html-mail-footer`), shallowly embedded over `List Char`.

Text is modelled as `List Char`; the decoded payload of a MIME part is the
unicode string the Python code works on, so charset decoding/encoding is the
identity in the model.  Functions keep the names of the Python functions and
methods they embed.
-/

set_option maxRecDepth 100000

namespace HtmlFooter

/-- Abbreviation: the character list of a string literal. -/
def str (s : String) : List Char := s.data

/-- Python's `\s` character class (`re.UNICODE`), restricted to the ASCII
whitespace characters; no input in this development contains a non-ASCII
whitespace character. -/
def isPySpace (c : Char) : Bool :=
  c = ' ' || c = '\t' || c = '\n' || c = '\r' || c = '\x0b' || c = '\x0c'

/-! ### MIMEChanger.RXP_SIGNATURE and `_split_content`

`RXP_SIGNATURE = re.compile(r'(.*)^--\s+(.*)', re.MULTILINE | re.DOTALL)`.
A match of `^--\s+` exists at index `i` iff `i` is at a line start (i.e. `i = 0`
or the previous character is a newline), the two characters at `i` are `--`,
and the following character is whitespace.  Since group 1 `(.*)` is greedy
under DOTALL, `search` commits to the **largest** such `i`; `\s+` then greedily
consumes the maximal whitespace run. -/

/-- `^--\s+` can match at position `i` of `txt`. -/
def isDelimAt (txt : List Char) (i : Nat) : Bool :=
  (decide (i = 0) || decide (txt.get? (i - 1) = some '\n')) &&
  decide (txt.get? i = some '-') &&
  decide (txt.get? (i + 1) = some '-') &&
  (match txt.get? (i + 2) with
   | some c => isPySpace c
   | none => false)

/-- Largest `i < n` with `isDelimAt txt i`, scanning downwards. -/
def lastDelimAux (txt : List Char) : Nat → Option Nat
  | 0 => none
  | n + 1 => if isDelimAt txt n then some n else lastDelimAux txt n

/-- Index at which the greedy `(.*)^--\s+(.*)` match cuts `txt`, if any. -/
def lastDelim (txt : List Char) : Option Nat :=
  lastDelimAux txt txt.length

/-- `MIMEChanger._split_content`: `(match.groups())` on success, otherwise
`[txt, u'']`.  Group 1 is everything before the last `^--\s+` occurrence,
group 2 is everything after the maximal whitespace run following that `--`. -/
def split_content (txt : List Char) : List Char × List Char :=
  match lastDelim txt with
  | none => (txt, [])
  | some i => (txt.take i, (txt.drop (i + 2)).dropWhile isPySpace)

/-! ### Basic facts about the delimiter search -/

theorem isDelimAt_lt_length {txt : List Char} {i : Nat}
    (h : isDelimAt txt i = true) : i < txt.length := by
  by_contra hge
  have hnone : txt[i]? = none := by
    exact List.getElem?_eq_none (Nat.le_of_not_lt hge)
  simp [isDelimAt, hnone] at h

theorem lastDelimAux_none {txt : List Char} :
    ∀ {n : Nat}, lastDelimAux txt n = none → ∀ i, i < n → isDelimAt txt i = false := by
  intro n
  induction n with
  | zero => intro _ i hi; omega
  | succ m ih =>
    intro h i hi
    by_cases hd : isDelimAt txt m
    · simp [lastDelimAux, hd] at h
    · rcases Nat.lt_succ_iff_lt_or_eq.mp hi with hlt | rfl
      · exact ih (by simpa [lastDelimAux, hd] using h) i hlt
      · simpa using hd

theorem lastDelimAux_some {txt : List Char} :
    ∀ n j, lastDelimAux txt n = some j → isDelimAt txt j = true ∧ j < n := by
  intro n
  induction n with
  | zero => intro j h; simp [lastDelimAux] at h
  | succ m ih =>
    intro j h
    by_cases hd : isDelimAt txt m
    · have hjm : j = m := by simpa [lastDelimAux, hd] using h.symm
      subst hjm
      exact ⟨hd, Nat.lt_succ_self _⟩
    · have h' : lastDelimAux txt m = some j := by simpa [lastDelimAux, hd] using h
      exact ⟨(ih j h').1, Nat.lt_succ_of_lt (ih j h').2⟩

theorem lastDelimAux_ge {txt : List Char} {i : Nat} (hi : isDelimAt txt i = true) :
    ∀ {n : Nat}, i < n → ∃ j, lastDelimAux txt n = some j ∧ i ≤ j := by
  intro n
  induction n with
  | zero => intro h; omega
  | succ m ih =>
    intro hin
    by_cases hd : isDelimAt txt m
    · exact ⟨m, by simp [lastDelimAux, hd], Nat.lt_succ_iff.mp hin⟩
    · have him : i < m := by
        rcases Nat.lt_succ_iff_lt_or_eq.mp hin with hlt | rfl
        · exact hlt
        · simp [hi] at hd
      rcases ih him with ⟨j, hj, hij⟩
      exact ⟨j, by simpa [lastDelimAux, hd] using hj, hij⟩

/-! ### MIMEChanger.RXP_SIG_HTML, `_split_signature`, `msg_is_to_alter`'s search

`RXP_SIG_HTML = re.compile(ur'^<html>\n', re.MULTILINE)`.  `_split_signature`
is `RXP_SIG_HTML.split(txt, 1)`: a list of one element (no match) or two
(text before the first match, text after it). -/

/-- Scan for the first `^<html>\n` occurrence.  `atStart` records whether the
current position is at a line start (position 0, or just after a newline).
Returns the text before the match and the text after it. -/
def splitSigAux : Bool → List Char → Option (List Char × List Char)
  | atStart, s =>
    if atStart && (str "<html>\n").isPrefixOf s then
      some ([], s.drop 7)
    else
      match s with
      | [] => none
      | c :: rest =>
        (splitSigAux (c = '\n') rest).map (fun p => (c :: p.1, p.2))

/-- `MIMEChanger._split_signature`: `RXP_SIG_HTML.split(txt, 1)`. -/
def split_signature (txt : List Char) : List (List Char) :=
  match splitSigAux true txt with
  | none => [txt]
  | some (b, a) => [b, a]

/-- `RXP_SIG_HTML.search(sig)` finds a match (the eligibility test applied to
a signature). -/
def hasSigHtml (sig : List Char) : Bool :=
  (splitSigAux true sig).isSome

/-! ### HyperTextFormatter text constants and `txt2html` -/

/-- `txt2html`: wrap plain text in a preformatted block. -/
def txt2html (txt : List Char) : List Char :=
  str "<pre id=\"plaintext\">\n" ++ txt ++ str "</pre>\n"

/-- `HyperTextFormatter.HTML_HEADER` (the CSS braces are written as `\x7b` /
`\x7d` escapes). -/
def HTML_HEADER : List Char :=
  str "<!DOCTYPE HTML PUBLIC \"-//W3C//DTD HTML 4.01 Transitional//EN\"\n    \"http://www.w3.org/TR/html4/loose.dtd\">\n<head>\n<meta http-equiv=\"content-type\" content=\"text/html; charset=UTF-8\">\n<style type=\"text/css\">\n#plaintext      \x7b\n    font-family:Fixedsys,Courier,monospace;\n    padding:10px;\n    white-space:pre-wrap;\n\x7d\n</style>\n</head>\n<body>\n"

/-- `HyperTextFormatter.HTML_FOOTER`. -/
def HTML_FOOTER : List Char :=
  str "</body>\n</html>"

/-! ### Python `unicode.split(u'\n')` -/

/-- Python's `s.split(sep)` for a single-character separator: always returns
one more piece than there are separators; `u''.split(u'\n') == [u'']`. -/
def pySplit (sep : Char) : List Char → List (List Char)
  | [] => [[]]
  | c :: rest =>
    match pySplit sep rest with
    | [] => [[]]
    | h :: t => if c = sep then [] :: h :: t else (c :: h) :: t

/-! ### The footer loop of `MIMEChanger.new_payload` (lines 338-360)

State of the loop: `state_html`, the plain-text accumulator `text`, the
pending plain buffer `txtbuffer`, and the formatter's html text
(`html.add_txt` / `html.add_html` only ever append to `self.txt`). -/

structure LoopSt where
  stateHtml : Bool
  text : List Char
  buf : List Char
  html : List Char
deriving Repr

/-- One iteration of `for line in footer.split(u'\n')`. -/
def footerStep (s : LoopSt) (line : List Char) : LoopSt :=
  if line = str "<html>" then
    { s with stateHtml := true,
             html := if s.buf = [] then s.html else s.html ++ txt2html s.buf,
             buf := [] }
  else if line = str "</html>" then
    { s with stateHtml := false }
  else if s.stateHtml then
    { s with html := s.html ++ line ++ ['\n'] }
  else
    { s with buf := s.buf ++ line ++ ['\n'], text := s.text ++ line ++ ['\n'] }

/-- The whole `for` loop. -/
def footerLoop (lines : List (List Char)) (init : LoopSt) : LoopSt :=
  lines.foldl footerStep init

/-- Lines 326-360 of `new_payload`: from the decoded body text, build the
plain-text branch payload and the formatter's html text (before
`has_attachments` / image substitution and before `HTML_FOOTER` is
appended by `html.get()`). -/
def assembleTexts (content : List Char) : List Char × List Char :=
  let split := split_content content
  let text0 := split.1
  let signature := split.2
  let sigSplit := split_signature signature
  -- text += u'-- \n'; text += self._split_signature(signature)[0]
  let text1 := text0 ++ str "-- \n" ++ sigSplit.headD []
  -- footer = self._split_signature(signature)[1], '' on IndexError
  let footer := sigSplit.getD 1 []
  let st := footerLoop (pySplit '\n' footer)
    { stateHtml := true, text := text1, buf := [],
      html := HTML_HEADER ++ txt2html text0 }
  -- trailing `if txtbuffer: html.add_txt(txtbuffer)`
  let htmlFinal := if st.buf = [] then st.html else st.html ++ txt2html st.buf
  (st.text, htmlFinal)

/-! ### Specification-side classifier (for claim C6)

These two definitions follow the specification's words (section 4.2: the
two-state line classifier whose plain segments close at a flip to Html mode)
and are compared with the source-derived `footerLoop` in the refinement
theorem for C6.  They are not a translation of the Python code. -/

inductive Seg where
  | htmlSeg (t : List Char)
  | plainSeg (t : List Char)
deriving Repr

/-- Close the pending plain run, if non-empty, into a segment. -/
def flushBuf (buf : List Char) : List Seg :=
  if buf = [] then [] else [.plainSeg buf]

/-- The spec's classifier over the post-marker footer lines, starting in Html
mode: marker lines produce no output, a `<html>` line closes the pending
plain run, ordinary lines join the current mode's run. -/
def classifyAux (mode : Bool) (buf : List Char) : List (List Char) → List Seg
  | [] => flushBuf buf
  | line :: rest =>
    if line = str "<html>" then flushBuf buf ++ classifyAux true [] rest
    else if line = str "</html>" then classifyAux false buf rest
    else if mode then .htmlSeg (line ++ ['\n']) :: classifyAux mode buf rest
    else classifyAux mode (buf ++ line ++ ['\n']) rest

/-- Classified segments of a footer (classification starts in Html mode,
since the footer is the text after the first `<html>` marker line). -/
def classifySegs (lines : List (List Char)) : List Seg :=
  classifyAux true [] lines

/-- Render a segment into the HTML branch: Html segments as raw markup,
Plain segments as preformatted blocks. -/
def renderSeg : Seg → List Char
  | .htmlSeg t => t
  | .plainSeg t => txt2html t

/-- Render a segment sequence. -/
def renderSegs (segs : List Seg) : List Char :=
  (segs.map renderSeg).flatten

/-! ### Python 2.7 `urlparse.urlparse`

Model of the standard-library collaborator, restricted to ASCII input: scheme
split (requiring scheme characters before the first `:` and a rest that is
empty or not all digits), `//netloc` split, fragment split, query split and
the `urlparse` params split for the schemes in `uses_params`. -/

/-- `scheme_chars` of `urlparse.py`. -/
def schemeChar (c : Char) : Bool :=
  c.isAlpha || c.isDigit || c = '+' || c = '-' || c = '.'

structure UrlP where
  scheme : List Char
  netloc : List Char
  path : List Char
  params : List Char
  query : List Char
  fragment : List Char

/-- `urlparse.urlsplit` (with `allow_fragments=True`). -/
def pyUrlsplit (url : List Char) : UrlP :=
  let before := url.takeWhile (fun c => c ≠ ':')
  let schemeOk := decide (before.length < url.length) && decide (before ≠ []) &&
    before.all schemeChar &&
    (decide (url.drop (before.length + 1) = []) ||
     !((url.drop (before.length + 1)).all Char.isDigit))
  let scheme := if schemeOk then before.map Char.toLower else []
  let u1 := if schemeOk then url.drop (before.length + 1) else url
  let netlocEnd := fun c => c ≠ '/' && c ≠ '?' && c ≠ '#'
  let netloc := if (str "//").isPrefixOf u1 then (u1.drop 2).takeWhile netlocEnd else []
  let u2 := if (str "//").isPrefixOf u1 then (u1.drop 2).dropWhile netlocEnd else u1
  let fragment := if u2.any (fun c => c = '#') then (u2.dropWhile (fun c => c ≠ '#')).drop 1 else []
  let u3 := if u2.any (fun c => c = '#') then u2.takeWhile (fun c => c ≠ '#') else u2
  let query := if u3.any (fun c => c = '?') then (u3.dropWhile (fun c => c ≠ '?')).drop 1 else []
  let path := if u3.any (fun c => c = '?') then u3.takeWhile (fun c => c ≠ '?') else u3
  { scheme := scheme, netloc := netloc, path := path,
    params := [], query := query, fragment := fragment }

/-- `urlparse.uses_params`. -/
def usesParams : List (List Char) :=
  [str "ftp", str "hdl", str "prospero", str "http", str "imap", str "https",
   str "shttp", str "rtsp", str "rtspu", str "sip", str "sips", str "mms",
   str "", str "sftp", str "tel"]

/-- `urlparse._splitparams`: split the params off the last path segment. -/
def pySplitparams (url : List Char) : List Char × List Char :=
  let seg := (url.reverse.takeWhile (fun c => c ≠ '/')).reverse
  if url.any (fun c => c = '/') then
    if seg.any (fun c => c = ';') then
      (url.take (url.length - seg.length) ++ seg.takeWhile (fun c => c ≠ ';'),
       (seg.dropWhile (fun c => c ≠ ';')).drop 1)
    else (url, [])
  else
    (url.takeWhile (fun c => c ≠ ';'), (url.dropWhile (fun c => c ≠ ';')).drop 1)

/-- `urlparse.urlparse`. -/
def pyUrlparse (url : List Char) : UrlP :=
  let u := pyUrlsplit url
  if usesParams.contains u.scheme && u.path.any (fun c => c = ';') then
    let pp := pySplitparams u.path
    { u with path := pp.1, params := pp.2 }
  else u

/-- The 6-tuple underlying a `ParseResult` (it is a `namedtuple`):
`(scheme, netloc, path, params, query, fragment)`. -/
def urlparse6 (url : List Char) : List (List Char) :=
  let u := pyUrlparse url
  [u.scheme, u.netloc, u.path, u.params, u.query, u.fragment]

/-- A Python subscript: an integer, or a tuple of integers (as in `t[0, 3, 2]`). -/
inductive PyIndex where
  | int (i : Nat)
  | tup (ixs : List Nat)

/-- Subscripting a (named)tuple.  An integer subscript indexes; a tuple
subscript raises `TypeError` — `ParseResult` inherits `tuple.__getitem__`,
which does not accept a tuple. -/
def tupleGet (t : List (List Char)) (ix : PyIndex) : Except (List Char) (List Char) :=
  match ix with
  | .int i =>
    match t.get? i with
    | some v => .ok v
    | none => .error (str "IndexError: tuple index out of range")
  | .tup _ => .error (str "TypeError: tuple indices must be integers, not tuple")

/-! ### HyperTextFormatter.RXP_IMG_TAG

`RXP_IMG_TAG = re.compile(ur'(<img\s[^>]*src=")([^"]+)("[^>]*>)')`.
The matcher below follows the backtracking semantics of this pattern:
the greedy `[^>]*` commits to the *last* `src="` occurrence reachable
without crossing a `>`; `([^"]+)` is then the forced maximal non-quote run,
and the trailing `[^>]*>` the forced maximal non-`>` run followed by `>`. -/

/-- Match `([^"]+)"[^>]*>` at the start of `l`; returns (group 2, the
trailing `[^>]*` run, the rest after the final `>`). -/
def tryTail (l : List Char) : Option (List Char × List Char × List Char) :=
  let g2 := l.takeWhile (fun c => c ≠ '"')
  if g2 = [] then none
  else
    match l.dropWhile (fun c => c ≠ '"') with
    | '"' :: rest1 =>
      match rest1.dropWhile (fun c => c ≠ '>') with
      | '>' :: rest2 => some (g2, rest1.takeWhile (fun c => c ≠ '>'), rest2)
      | _ => none
    | _ => none

/-- Match `[^>]*src="` then `tryTail`, preferring the latest possible `src="`
(greedy `[^>]*`); returns (the `[^>]*` run, group 2, the trailing run, the
rest). -/
def scanSrc : List Char → Option (List Char × List Char × List Char × List Char)
  | [] => none
  | c :: rest =>
    if c = '>' then none
    else
      match scanSrc rest with
      | some (mid, g2, tl, r) => some (c :: mid, g2, tl, r)
      | none =>
        if (str "src=\"").isPrefixOf (c :: rest) then
          match tryTail ((c :: rest).drop 5) with
          | some (g2, tl, r) => some ([], g2, tl, r)
          | none => none
        else none

/-- Match the whole pattern at the start of `s`; returns
(group 1, group 2, group 3, rest of the input after the match). -/
def matchImgStart (s : List Char) :
    Option (List Char × List Char × List Char × List Char) :=
  match s with
  | '<' :: 'i' :: 'm' :: 'g' :: c :: rest =>
    if isPySpace c then
      match scanSrc rest with
      | some (mid, g2, tl, r) =>
        some (str "<img" ++ c :: (mid ++ str "src=\""), g2, '"' :: (tl ++ ['>']), r)
      | none => none
    else none
  | _ => none

/-- `RXP_IMG_TAG.search`: leftmost match; returns (text before the match,
(group 1, group 2, group 3, text after the match)). -/
def searchImg : List Char → Option (List Char × List Char × List Char × List Char × List Char)
  | [] => none
  | c :: rest =>
    match matchImgStart (c :: rest) with
    | some (g1, g2, g3, r) => some ([], g1, g2, g3, r)
    | none =>
      match searchImg rest with
      | some (p, g1, g2, g3, r) => some (c :: p, g1, g2, g3, r)
      | none => none

/-- `HyperTextFormatter.has_attachments`.  The line
`scheme, path = urlparse(match.group(2))[0, 3, 2]` subscripts the parse
result (a 6-tuple) with the tuple `(0, 3, 2)` — the intended slice was
`[0:3:2]` — so whenever the regex finds a match the method raises
`TypeError` before the unpacking or the `if` is reached; the mapped
continuation below is never taken. -/
def has_attachments (txt : List Char) : Except (List Char) Bool :=
  match searchImg txt with
  | none => .ok false
  | some (_, _, g2, _, _) =>
    (tupleGet (urlparse6 g2) (.tup [0, 3, 2])).map (fun _ => false)

/-! ### Message model

A decoded email message: a leaf part (content type + decoded text payload) or
a multipart container (its `get_content_type()` is `multipart/<subtype>`).
Header order is preserved; charset decoding/encoding is the identity. -/

inductive EMsg where
  | leaf (headers : List (List Char × List Char)) (ctype : List Char) (payload : List Char)
  | multi (headers : List (List Char × List Char)) (subtype : List Char) (children : List EMsg)

/-- `Message.get_content_type()`. -/
def get_content_type : EMsg → List Char
  | .leaf _ ct _ => ct
  | .multi _ sub _ => str "multipart/" ++ sub

/-- `payload2unicode`: the decoded text of a part.  In the pipeline it is only
ever applied to leaf parts; a container has no text payload. -/
def payload2unicode : EMsg → List Char
  | .leaf _ _ p => p
  | .multi _ _ _ => []

def headersOf : EMsg → List (List Char × List Char)
  | .leaf h _ _ => h
  | .multi h _ _ => h

def childrenOf : EMsg → List EMsg
  | .leaf _ _ _ => []
  | .multi _ _ cs => cs

/-- The scan of `first_text` over a multipart payload. -/
def firstTextIn : List EMsg → List Char
  | [] => []
  | c :: rest =>
    if get_content_type c = str "text/plain" then payload2unicode c
    else firstTextIn rest

/-- `first_text`: first text/plain part of a message as a string. -/
def first_text (m : EMsg) : List Char :=
  match m with
  | .leaf _ ct p => if ct = str "text/plain" then p else []
  | .multi _ _ children => firstTextIn children

/-! ### Image resolution (`HyperTextFormatter.create_mime_attachments`) -/

/-- External collaborators of the resolver: the image directory's file system
(`None` = the file cannot be opened), the configured `options.imagepath`, and
the image subtype inference of `MIMEImage` (`imghdr`). -/
structure Env where
  fs : List Char → Option (List Char)
  imagepath : List Char
  imgSubtype : List Char → List Char

/-- Deterministic stand-in for `email.utils.make_msgid("part%i" % parts)`:
the real ids also contain a timestamp, pid and random number, but are always
of the shape `<token>`; per-message uniqueness comes from the `parts`
counter. -/
def mkMsgid (parts : Nat) : List Char :=
  '<' :: (str "part" ++ Nat.toDigits 10 parts ++ str ".model@localhost") ++ ['>']

/-- Python's `s.strip(chars)`: drop leading and trailing characters that occur
in `chars`. -/
def pyStrip (chars s : List Char) : List Char :=
  ((s.dropWhile (fun c => chars.contains c)).reverse.dropWhile
    (fun c => chars.contains c)).reverse

/-- `os.path.split(p)[1]`: the part after the last `/`. -/
def pyBasename (p : List Char) : List Char :=
  (p.reverse.takeWhile (fun c => c ≠ '/')).reverse

/-- The MIME image part built by the replacer: `MIMEImage(bytes)` with a
`Content-ID` header and a `Content-Disposition: attachment` header carrying
the original path as filename. -/
def MIMEImagePart (env : Env) (payload imgId path : List Char) : EMsg :=
  .leaf [(str "Content-ID", imgId),
         (str "Content-Disposition", str "attachment; filename=" ++ path)]
        (str "image/" ++ env.imgSubtype payload) payload

/-- The mutable state the replacer callback threads through `re.sub`:
`self.attachments` and `self.parts`. -/
structure RState where
  attachments : List EMsg
  parts : Nat

/-- The `replacer` callback: parse group 2 as a URI, open
`imagepath/basename`, mint a content-id, record the attachment, and return
the text substituted for the `src` value (an `IOError` if the file cannot be
opened). -/
def replacer (env : Env) (st : RState) (g2 : List Char) :
    Except (List Char) (RState × List Char) :=
  let path := (pyUrlparse g2).path
  let filename := env.imagepath ++ '/' :: pyBasename path
  match env.fs filename with
  | none => .error (str "IOError: cannot open " ++ filename)
  | some bytes =>
    let imgId := mkMsgid st.parts
    .ok ({ attachments := st.attachments ++ [MIMEImagePart env bytes imgId path],
           parts := st.parts + 1 },
         str "cid:" ++ pyStrip (str "<>") imgId)

/-- `RXP_IMG_TAG.sub(replacer, s)`: replace every match left to right; an
exception from the callback aborts the substitution but keeps the state
mutations already performed.  Every match consumes at least one character,
so fuel `s.length` always suffices. -/
def subImgAux (env : Env) : Nat → RState → List Char →
    RState × Except (List Char) (List Char)
  | 0, st, s => (st, .ok s)
  | fuel + 1, st, s =>
    match searchImg s with
    | none => (st, .ok s)
    | some (pre, g1, g2, g3, rest) =>
      match replacer env st g2 with
      | .error e => (st, .error e)
      | .ok (st', mid) =>
        match subImgAux env fuel st' rest with
        | (st'', .ok out) => (st'', .ok (pre ++ g1 ++ mid ++ g3 ++ out))
        | (st'', .error e) => (st'', .error e)

/-- The formatter's state: `self.txt`, `self.attachments`, `self.parts`. -/
structure HTF where
  txt : List Char
  attachments : List EMsg
  parts : Nat

/-- `HyperTextFormatter.create_mime_attachments`, as a state transformer:
on success `self.txt` is assigned the substituted text; if the substitution
raises, the assignment is never reached, so `self.txt` keeps its old value
while the attachments appended before the failure remain. -/
def create_mime_attachments (env : Env) (h : HTF) : HTF × Option (List Char) :=
  match subImgAux env h.txt.length
      { attachments := h.attachments, parts := h.parts } h.txt with
  | (st, .ok newTxt) =>
    ({ txt := newTxt, attachments := st.attachments, parts := st.parts }, none)
  | (st, .error e) =>
    ({ txt := h.txt, attachments := st.attachments, parts := st.parts }, some e)

/-! ### MIMEChanger: `new_payload`, `_process_plain`, `_process_multi`,
`alter_message`, `msg_is_to_alter`, and `modify_data` -/

/-- `MIMEChanger.new_payload`: assemble the texts, then build
`multipart/alternative(plain, html)` — where the html branch becomes
`multipart/related(html, *attachments)` if `has_attachments()` returns true.
A raised exception (`has_attachments`'s `TypeError`, or an `IOError` of the
resolver) propagates as `.error`. -/
def new_payload (env : Env) (mime_plain : EMsg) : Except (List Char) EMsg :=
  let texts := assembleTexts (payload2unicode mime_plain)
  match has_attachments texts.2 with
  | .error e => .error e
  | .ok true =>
    match create_mime_attachments env { txt := texts.2, attachments := [], parts := 1 } with
    | (_, some e) => .error e
    | (h2, none) =>
      .ok (.multi [] (str "alternative")
        [.leaf [] (str "text/plain") texts.1,
         .multi [] (str "related")
           (.leaf [] (str "text/html") (h2.txt ++ HTML_FOOTER) :: h2.attachments)])
  | .ok false =>
    .ok (.multi [] (str "alternative")
      [.leaf [] (str "text/plain") texts.1,
       .leaf [] (str "text/html") (texts.2 ++ HTML_FOOTER)])

/-- `copy_mime_root`: a fresh multipart/alternative root carrying the old
headers except those starting with `Content-`. -/
def copy_mime_root (m : EMsg) : EMsg :=
  .multi ((headersOf m).filter (fun kv => !(str "Content-").isPrefixOf kv.1))
    (str "alternative") []

/-- `MIMEChanger._process_plain`: new root container with the two branches of
`new_payload` attached. -/
def process_plain (env : Env) (m : EMsg) : Except (List Char) EMsg :=
  (new_payload env m).map (fun np =>
    match copy_mime_root m with
    | .multi h sub _ => .multi h sub (childrenOf np)
    | x => x)

/-- `MIMEChanger._process_multi`: replace the first text/plain child in
place; if there is none, `pload[i]` with `i = len(pload)` raises
`IndexError`. -/
def process_multi (env : Env) (m : EMsg) : Except (List Char) EMsg :=
  match m with
  | .multi h sub children =>
    let i := children.findIdx (fun c => get_content_type c = str "text/plain")
    if hlt : i < children.length then
      (new_payload env (children.get ⟨i, hlt⟩)).map
        (fun np => .multi h sub (children.set i np))
    else .error (str "IndexError: list assignment index out of range")
  | .leaf _ _ _ => .error (str "unreachable: _process_multi on a non-multipart message")

/-- The module-level `X_HEADER` flag. -/
def X_HEADER : Bool := true

/-- `add_header('X-Modified-By', 'Html Footer %s' % __version__)`. -/
def addXHeader : EMsg → EMsg
  | .leaf h ct p => .leaf (h ++ [(str "X-Modified-By", str "Html Footer 20120227")]) ct p
  | .multi h sub cs => .multi (h ++ [(str "X-Modified-By", str "Html Footer 20120227")]) sub cs

/-- `MIMEChanger.alter_message`. -/
def alter_message (env : Env) (m : EMsg) : Except (List Char) EMsg :=
  let r := match m with
           | .leaf _ _ _ => process_plain env m
           | .multi _ _ _ => process_multi env m
  if X_HEADER then r.map addXHeader else r

/-- `MIMEChanger.msg_is_to_alter`: the first text/plain part's signature
contains a `^<html>\n` match. -/
def msg_is_to_alter (m : EMsg) : Bool :=
  hasSigHtml (split_content (first_text m)).2

/-- `modify_data`: alter the message when `msg_is_to_alter`, otherwise return
the input unchanged.  (Decoding and re-encoding of the wire format are the
external collaborators and are the identity in the model.) -/
def modify_data (env : Env) (m : EMsg) : Except (List Char) EMsg :=
  if msg_is_to_alter m then alter_message env m else .ok m

/-! ### Small test-harness helpers (not part of the source) -/

/-- `pat` occurs as a contiguous substring of `s`. -/
def containsSub (pat s : List Char) : Bool :=
  s.tails.any (fun t => pat.isPrefixOf t)

/-- A concrete environment for witnesses: an empty image directory. -/
def env0 : Env :=
  { fs := fun _ => none, imagepath := str "/var/lib/html_footer",
    imgSubtype := fun _ => str "png" }

/-- The payload of the first child of a produced multipart (the plain branch
of a `new_payload` result). -/
def firstChildPayload (r : Except (List Char) EMsg) : Option (List Char) :=
  match r with
  | .ok (.multi _ _ (.leaf _ _ p :: _)) => some p
  | _ => none

/-! ### Lemmas about the delimiter split -/

theorem isDelimAt_iff {txt : List Char} {i : Nat} :
    isDelimAt txt i = true ↔
      (i = 0 ∨ txt[i - 1]? = some '\n') ∧ txt[i]? = some '-' ∧
      txt[i + 1]? = some '-' ∧
      ∃ c, txt[i + 2]? = some c ∧ isPySpace c = true := by
  cases h2 : txt[i + 2]? <;> simp [isDelimAt, h2, and_assoc]

theorem isDelimAt_false_of_no_delim {txt : List Char}
    (h : lastDelim txt = none) : ∀ i, isDelimAt txt i = false := by
  intro i
  by_cases hi : i < txt.length
  · exact lastDelimAux_none h i hi
  · by_contra hne
    have ht : isDelimAt txt i = true := by
      cases hb : isDelimAt txt i
      · exact absurd hb hne
      · rfl
    exact hi (isDelimAt_lt_length ht)

/-- Claim C4 (amended): the split point of `_split_content` is itself a
delimiter position and is at least as large as every delimiter position: the
cut happens at the **last** `^--\s+` occurrence, not the first. -/
theorem split_content_cuts_last (txt : List Char) (i : Nat)
    (h : isDelimAt txt i = true) :
    i ≤ (split_content txt).1.length ∧
    isDelimAt txt ((split_content txt).1.length) = true := by
  obtain ⟨j, hj, hij⟩ := lastDelimAux_ge h (isDelimAt_lt_length h)
  obtain ⟨hdj, hjn⟩ := lastDelimAux_some txt.length j hj
  have hcontent : (split_content txt).1 = txt.take j := by
    simp [split_content, lastDelim, hj]
  rw [hcontent]
  have hlen : (txt.take j).length = j := by
    simp [List.length_take]
    omega
  rw [hlen]
  exact ⟨hij, hdj⟩

/-- Witness for `split_content_cuts_last`: the body with two delimiter lines
used in the C4 counterexample, at its first delimiter position 2. -/
theorem split_content_cuts_last_witness :
    isDelimAt (str "a\n-- \nb\n-- \nc\n") 2 = true ∧
    (2 ≤ (split_content (str "a\n-- \nb\n-- \nc\n")).1.length ∧
     isDelimAt (str "a\n-- \nb\n-- \nc\n")
       ((split_content (str "a\n-- \nb\n-- \nc\n")).1.length) = true) :=
  ⟨by decide, split_content_cuts_last (str "a\n-- \nb\n-- \nc\n") 2 (by decide)⟩

/-- Claim C4 (counterexample): on a body with two delimiter lines the
splitter cuts at the second one, not the first: content keeps the first
delimiter line and the text between the delimiters, and the signature is
only what follows the last delimiter. -/
theorem split_content_two_delims_counterexample :
    split_content (str "a\n-- \nb\n-- \nc\n") = (str "a\n-- \nb\n", str "c\n") ∧
    split_content (str "a\n-- \nb\n-- \nc\n") ≠ (str "a\n", str "b\n-- \nc\n") := by
  constructor
  · decide
  · decide

/-- Claim C5 (counterexample): a line consisting of `--` with no trailing
space is also accepted as a delimiter, because `\s+` matches the line's own
newline; the claimed delimiter-free result `(body, "")` is not returned. -/
theorem split_content_bare_dashes_counterexample :
    split_content (str "a\n--\nb") = (str "a\n", str "b") ∧
    split_content (str "a\n--\nb") ≠ (str "a\n--\nb", str "") := by
  constructor
  · decide
  · decide

/-- Claim C5 (amended): either no position of the body matches `^--\s+` and
the splitter returns `(body, "")`, or the body decomposes as
`content ++ "--" ++ w ++ signature` where `w` is a non-empty whitespace run
(so a trailing space is *not* required: the line's newline qualifies, and
extra text after the whitespace run simply starts the signature) and the
content is empty or ends just before a line start. -/
theorem split_content_characterization (txt : List Char) :
    ((∀ i, isDelimAt txt i = false) ∧ split_content txt = (txt, [])) ∨
    (∃ w, txt = (split_content txt).1 ++ '-' :: '-' :: (w ++ (split_content txt).2) ∧
      w ≠ [] ∧ (∀ c ∈ w, isPySpace c = true) ∧
      ((split_content txt).1 = [] ∨ ∃ t, (split_content txt).1 = t ++ ['\n'])) := by
  cases h : lastDelim txt with
  | none =>
    left
    exact ⟨isDelimAt_false_of_no_delim h, by simp [split_content, h]⟩
  | some j =>
    right
    obtain ⟨hdj, hjn⟩ := lastDelimAux_some txt.length j h
    obtain ⟨_, hj0, hj1, c, hj2, hc⟩ := isDelimAt_iff.mp hdj
    have hsc1 : (split_content txt).1 = txt.take j := by
      simp [split_content, h]
    have hsc2 : (split_content txt).2 = (txt.drop (j + 2)).dropWhile isPySpace := by
      simp [split_content, h]
    refine ⟨(txt.drop (j + 2)).takeWhile isPySpace, ?_, ?_, ?_, ?_⟩
    · -- txt = take j ++ '-' :: '-' :: (takeWhile ++ dropWhile)
      rw [hsc1, hsc2]
      have hlt1 : j + 1 < txt.length := by
        by_contra hge
        have hnone : txt[j + 1]? = none := List.getElem?_eq_none (Nat.le_of_not_lt hge)
        simp [hnone] at hj1
      have e0 : txt.drop j = '-' :: txt.drop (j + 1) := by
        have hd := List.drop_eq_getElem_cons (l := txt) hjn
        have hv : txt[j] = '-' := (List.getElem?_eq_some.mp hj0).choose_spec
        rw [hv] at hd
        exact hd
      have e1 : txt.drop (j + 1) = '-' :: txt.drop (j + 2) := by
        have hd := List.drop_eq_getElem_cons (l := txt) hlt1
        have hv : txt[j + 1] = '-' := (List.getElem?_eq_some.mp hj1).choose_spec
        rw [hv] at hd
        exact hd
      conv_lhs => rw [← List.take_append_drop j txt]
      rw [e0, e1, List.takeWhile_append_dropWhile]
    · -- the whitespace run is non-empty
      have hlt2 : j + 2 < txt.length := by
        by_contra hge
        have hnone : txt[j + 2]? = none := List.getElem?_eq_none (Nat.le_of_not_lt hge)
        simp [hnone] at hj2
      have e2 : txt.drop (j + 2) = c :: txt.drop (j + 3) := by
        have hd := List.drop_eq_getElem_cons (l := txt) hlt2
        have hv : txt[j + 2] = c := (List.getElem?_eq_some.mp hj2).choose_spec
        rw [hv] at hd
        exact hd
      rw [e2, List.takeWhile_cons_of_pos hc]
      simp
    · intro d hd
      exact List.mem_takeWhile_imp hd
    · -- content is empty or ends in a newline
      rw [hsc1]
      cases j with
      | zero => left; simp
      | succ k =>
        right
        refine ⟨txt.take k, ?_⟩
        have hnl : txt[k]? = some '\n' := by
          rcases (isDelimAt_iff.mp hdj).1 with h0 | hnl
          · exact absurd h0 (Nat.succ_ne_zero k)
          · simpa using hnl
        rw [List.take_succ, hnl]
        rfl

/-! ### Eligibility and identity on ineligible messages (C3, C10) -/

/-- Claim C3: when the first text/plain part's signature has no `^<html>\n`
match, `modify_data` returns its input unchanged, and applying it twice also
returns the input unchanged. -/
theorem modify_data_ineligible_identity (env : Env) (m : EMsg)
    (h : hasSigHtml (split_content (first_text m)).2 = false) :
    modify_data env m = .ok m ∧
    (modify_data env m).bind (modify_data env) = .ok m := by
  have hn : msg_is_to_alter m = false := h
  have h1 : modify_data env m = .ok m := by simp [modify_data, hn]
  refine ⟨h1, ?_⟩
  rw [h1]
  simpa [Except.bind] using h1

/-- Witness for `modify_data_ineligible_identity` at a concrete marker-free
message. -/
theorem modify_data_ineligible_identity_witness :
    hasSigHtml (split_content (first_text
      (.leaf [] (str "text/plain") (str "Hello\n-- \nBest,\nMe\n")))).2 = false ∧
    (modify_data env0 (.leaf [] (str "text/plain") (str "Hello\n-- \nBest,\nMe\n")) =
       .ok (.leaf [] (str "text/plain") (str "Hello\n-- \nBest,\nMe\n")) ∧
     (modify_data env0 (.leaf [] (str "text/plain") (str "Hello\n-- \nBest,\nMe\n"))).bind
       (modify_data env0) =
       .ok (.leaf [] (str "text/plain") (str "Hello\n-- \nBest,\nMe\n"))) :=
  ⟨by decide, modify_data_ineligible_identity env0 _ (by decide)⟩

/-- One-step equation for `splitSigAux` on a cons cell. -/
theorem splitSigAux_cons (flag : Bool) (c : Char) (rest : List Char) :
    splitSigAux flag (c :: rest) =
      if flag && (str "<html>\n").isPrefixOf (c :: rest) then
        some ([], (c :: rest).drop 7)
      else (splitSigAux (c = '\n') rest).map (fun p => (c :: p.1, p.2)) := by
  rw [splitSigAux]

/-- If `<html>\n` is a prefix of `x ++ "<html>"` for non-empty `x`, it is
already a prefix of `x`: the appended `"<html>"` contains no newline and
cannot complete a partial marker, since no proper tail of the pattern starts
with `<`. -/
theorem marker_prefix_of_append {x : List Char} (hx : x ≠ [])
    (h : (str "<html>\n").isPrefixOf (x ++ str "<html>") = true) :
    (str "<html>\n").isPrefixOf x = true := by
  rw [List.isPrefixOf_iff_prefix] at *
  by_cases hk : 7 ≤ x.length
  · have heq := List.prefix_iff_eq_take.mp h
    have hlen : (str "<html>\n").length = 7 := by decide
    rw [hlen, List.take_append_of_le_length hk] at heq
    rw [heq]
    exact List.take_prefix 7 x
  · exfalso
    obtain ⟨t, ht⟩ := h
    have hk6 : x.length ≤ 6 := by omega
    have hk1 : 1 ≤ x.length := by
      have := List.length_pos.mpr hx
      omega
    have hklt : x.length < (str "<html>\n").length := by
      have h7 : (str "<html>\n").length = 7 := by decide
      omega
    have hdrop : (str "<html>\n").drop x.length ++ t = str "<html>" := by
      have hcongr := congrArg (List.drop x.length) ht
      rw [List.drop_append_of_le_length (by omega)] at hcongr
      rw [List.drop_left] at hcongr
      exact hcongr
    have hcons := List.drop_eq_getElem_cons (l := str "<html>\n") hklt
    rw [hcons, List.cons_append] at hdrop
    have hT : str "<html>" = '<' :: str "html>" := by decide
    rw [hT] at hdrop
    injection hdrop with hhead _
    have hsome : (str "<html>\n")[x.length]? = some '<' := by
      rw [List.getElem?_eq_getElem hklt, hhead]
    rcases (by omega :
        x.length = 1 ∨ x.length = 2 ∨ x.length = 3 ∨ x.length = 4 ∨
        x.length = 5 ∨ x.length = 6) with
      hk' | hk' | hk' | hk' | hk' | hk' <;> rw [hk'] at hsome <;>
      exact absurd hsome (by decide)

/-- Appending a final `"<html>"` with no trailing newline does not change
whether the `^<html>\n` scan succeeds. -/
theorem splitSigAux_append_marker :
    ∀ (l : List Char) (flag : Bool),
      (splitSigAux flag (l ++ str "<html>")).isSome =
      (splitSigAux flag l).isSome := by
  intro l
  induction l with
  | nil => intro flag; cases flag <;> decide
  | cons c l' ih =>
    intro flag
    rw [List.cons_append, splitSigAux_cons, splitSigAux_cons]
    by_cases hpre : (str "<html>\n").isPrefixOf (c :: l') = true
    · have hpre2 : (str "<html>\n").isPrefixOf (c :: (l' ++ str "<html>")) = true := by
        rw [List.isPrefixOf_iff_prefix] at *
        rw [← List.cons_append]
        exact hpre.trans (List.prefix_append _ _)
      cases flag <;> simp [hpre, hpre2, Option.isSome_map', ih]
    · have hpreF : (str "<html>\n").isPrefixOf (c :: l') = false :=
        Bool.not_eq_true _ ▸ eq_false_of_ne_true hpre
      have hpre2 : (str "<html>\n").isPrefixOf (c :: (l' ++ str "<html>")) = false := by
        cases hb : (str "<html>\n").isPrefixOf (c :: (l' ++ str "<html>")) with
        | false => rfl
        | true =>
          have := marker_prefix_of_append (x := c :: l') (by simp)
            (by rw [List.cons_append]; exact hb)
          exact absurd this hpre
      cases flag <;> simp [hpreF, hpre2, Option.isSome_map', ih]

/-- `hasSigHtml` ignores a bare trailing `<html>` with no newline after it. -/
theorem hasSigHtml_append_marker (l : List Char) :
    hasSigHtml (l ++ str "<html>") = hasSigHtml l :=
  splitSigAux_append_marker l true

/-- Claim C10: a message whose first text/plain part's signature ends in
`<html>` with no trailing newline (and whose earlier signature text has no
marker) is ineligible — the eligibility regex `^<html>\n` requires the
newline — and passes through `modify_data` unchanged. -/
theorem trailing_marker_ineligible (env : Env)
    (hdrs : List (List Char × List Char)) (payload pre : List Char)
    (hsig : (split_content payload).2 = pre ++ str "<html>")
    (hpre : hasSigHtml pre = false) :
    msg_is_to_alter (.leaf hdrs (str "text/plain") payload) = false ∧
    modify_data env (.leaf hdrs (str "text/plain") payload) =
      .ok (.leaf hdrs (str "text/plain") payload) := by
  have hft : first_text (.leaf hdrs (str "text/plain") payload) = payload := by
    simp [first_text]
  have h1 : msg_is_to_alter (.leaf hdrs (str "text/plain") payload) = false := by
    show hasSigHtml (split_content (first_text (.leaf hdrs (str "text/plain") payload))).2 = false
    rw [hft, hsig, hasSigHtml_append_marker]
    exact hpre
  exact ⟨h1, by simp [modify_data, h1]⟩

/-- Witness for `trailing_marker_ineligible`: the signature of
`"Hi\n-- \nx\n<html>"` is `"x\n<html>"`, whose marker lacks a newline. -/
theorem trailing_marker_ineligible_witness :
    ((split_content (str "Hi\n-- \nx\n<html>")).2 = str "x\n" ++ str "<html>" ∧
     hasSigHtml (str "x\n") = false) ∧
    (msg_is_to_alter (.leaf [] (str "text/plain") (str "Hi\n-- \nx\n<html>")) = false ∧
     modify_data env0 (.leaf [] (str "text/plain") (str "Hi\n-- \nx\n<html>")) =
       .ok (.leaf [] (str "text/plain") (str "Hi\n-- \nx\n<html>"))) :=
  ⟨⟨by decide, by decide⟩,
   trailing_marker_ineligible env0 [] (str "Hi\n-- \nx\n<html>") (str "x\n")
     (by decide) (by decide)⟩

/-! ### The end-to-end example (C1) and the has_attachments bug (C2) -/

/-- Claim C1 (counterexample): on the example body the plain branch carries a
trailing extra newline — the footer text `"<b>Bold</b>\n</html>\n"` ends with
a newline, so `split(u'\n')` yields a final empty line which the loop, then
in plain mode, appends as `"\n"` to the plain text.  The claimed value
`"Hello\n-- \nBest,\nMe\n"` is not produced. -/
theorem new_payload_c1_plain_counterexample :
    firstChildPayload (new_payload env0 (.leaf [] (str "text/plain")
        (str "Hello\n-- \nBest,\nMe\n<html>\n<b>Bold</b>\n</html>\n"))) =
      some (str "Hello\n-- \nBest,\nMe\n\n") ∧
    firstChildPayload (new_payload env0 (.leaf [] (str "text/plain")
        (str "Hello\n-- \nBest,\nMe\n<html>\n<b>Bold</b>\n</html>\n"))) ≠
      some (str "Hello\n-- \nBest,\nMe\n") := by
  exact ⟨by rfl, by decide⟩

/-- Claim C1 (amended): the example body yields a multipart/alternative whose
plain branch is exactly `"Hello\n-- \nBest,\nMe\n\n"` (one trailing newline
more than the spec's example) and whose HTML branch is the header, a
preformatted block holding `"Hello"`, the raw markup `"<b>Bold</b>"`, a
preformatted block holding the trailing empty line, and the footer. -/
theorem new_payload_c1_example :
    new_payload env0 (.leaf [] (str "text/plain")
        (str "Hello\n-- \nBest,\nMe\n<html>\n<b>Bold</b>\n</html>\n")) =
      .ok (.multi [] (str "alternative")
        [.leaf [] (str "text/plain") (str "Hello\n-- \nBest,\nMe\n\n"),
         .leaf [] (str "text/html")
           (HTML_HEADER ++ txt2html (str "Hello\n") ++ str "<b>Bold</b>\n" ++
            txt2html (str "\n") ++ HTML_FOOTER)]) := by
  rfl

/-- Claim C2: for the input `<img src="logo.png">` the pre-check should
return `True` (the src parses with an empty scheme and a non-empty path), but
`has_attachments` raises `TypeError`: it subscripts the `urlparse` result
with the tuple `(0, 3, 2)` — the intended slice was `[0:3:2]` — so any input
whose first `<img>` tag matches makes the method raise instead of returning a
boolean, contradicting its own docstring. -/
theorem has_attachments_raises_on_img :
    has_attachments (str "body <img src=\"logo.png\"> end") =
      .error (str "TypeError: tuple indices must be integers, not tuple") ∧
    (pyUrlparse (str "logo.png")).scheme = str "" ∧
    (pyUrlparse (str "logo.png")).path = str "logo.png" := by
  exact ⟨by rfl, by decide, by decide⟩

/-! ### The HTML branch as rendered segments (C6) -/

theorem renderSegs_append (a b : List Seg) :
    renderSegs (a ++ b) = renderSegs a ++ renderSegs b := by
  simp [renderSegs]

/-- The html text accumulated by the footer loop (with the final pending-
buffer flush) is the initial html text followed by the rendering of the
classified segments. -/
theorem footerLoop_html :
    ∀ (lines : List (List Char)) (mode : Bool) (t b h : List Char),
      (if (footerLoop lines { stateHtml := mode, text := t, buf := b, html := h }).buf = []
       then (footerLoop lines { stateHtml := mode, text := t, buf := b, html := h }).html
       else (footerLoop lines { stateHtml := mode, text := t, buf := b, html := h }).html ++
            txt2html (footerLoop lines { stateHtml := mode, text := t, buf := b, html := h }).buf) =
      h ++ renderSegs (classifyAux mode b lines) := by
  intro lines
  induction lines with
  | nil =>
    intro mode t b h
    by_cases hb : b = [] <;>
      simp [footerLoop, classifyAux, flushBuf, hb, renderSegs, renderSeg]
  | cons line rest ih =>
    intro mode t b h
    by_cases h1 : line = str "<html>"
    · subst h1
      have hstep : footerLoop (str "<html>" :: rest)
          { stateHtml := mode, text := t, buf := b, html := h } =
          footerLoop rest
            { stateHtml := true, text := t, buf := [],
              html := (if b = [] then h else h ++ txt2html b) } := by
        simp [footerLoop, footerStep]
      have hclass : classifyAux mode b (str "<html>" :: rest) =
          flushBuf b ++ classifyAux true [] rest := by
        rw [classifyAux]
        simp
      rw [hstep, ih true t [] _, hclass, renderSegs_append]
      by_cases hb : b = [] <;> simp [flushBuf, hb, renderSegs, renderSeg]
    · by_cases h2 : line = str "</html>"
      · subst h2
        have hne : ¬(str "</html>" = str "<html>") := by decide
        have hstep : footerLoop (str "</html>" :: rest)
            { stateHtml := mode, text := t, buf := b, html := h } =
            footerLoop rest { stateHtml := false, text := t, buf := b, html := h } := by
          simp [footerLoop, footerStep, hne]
        have hclass : classifyAux mode b (str "</html>" :: rest) =
            classifyAux false b rest := by
          rw [classifyAux]
          simp [hne]
        rw [hstep, ih false t b h, hclass]
      · cases hm : mode
        · -- plain mode: the line joins the buffer and the plain text
          have hstep : footerLoop (line :: rest)
              { stateHtml := false, text := t, buf := b, html := h } =
              footerLoop rest
                { stateHtml := false, text := t ++ line ++ ['\n'],
                  buf := b ++ line ++ ['\n'], html := h } := by
            simp [footerLoop, footerStep, h1, h2]
          have hclass : classifyAux false b (line :: rest) =
              classifyAux false (b ++ line ++ ['\n']) rest := by
            rw [classifyAux]
            simp [h1, h2]
          rw [hstep, ih false _ _ h, hclass]
        · -- html mode: the line is emitted as raw markup
          have hstep : footerLoop (line :: rest)
              { stateHtml := true, text := t, buf := b, html := h } =
              footerLoop rest
                { stateHtml := true, text := t, buf := b,
                  html := h ++ line ++ ['\n'] } := by
            simp [footerLoop, footerStep, h1, h2]
          have hclass : classifyAux true b (line :: rest) =
              .htmlSeg (line ++ ['\n']) :: classifyAux true b rest := by
            rw [classifyAux]
            simp [h1, h2]
          rw [hstep, ih true t b _, hclass]
          simp [renderSegs, renderSeg]

/-- Claim C6 (amended): for every body, the assembled HTML text is the
header, the pre-signature content as one preformatted block, then exactly
the classified segments of the signature part *after* the first `<html>`
marker, rendered in original order (Html lines as raw markup, plain runs as
preformatted blocks).  Plain signature lines before the first `<html>`
marker are not part of it — they go only to the plain branch. -/
theorem assembleTexts_html_branch (content : List Char) :
    (assembleTexts content).2 =
      HTML_HEADER ++ txt2html (split_content content).1 ++
      renderSegs (classifySegs (pySplit '\n'
        ((split_signature (split_content content).2).getD 1 []))) := by
  unfold assembleTexts
  rw [classifySegs]
  rw [← footerLoop_html (pySplit '\n'
        ((split_signature (split_content content).2).getD 1 [])) true
        ((split_content content).1 ++ str "-- \n" ++
          (split_signature (split_content content).2).headD [])
        [] (HTML_HEADER ++ txt2html (split_content content).1)]

/-- Claim C6 (counterexample): the plain signature line `zq` *precedes* the
first `<html>` marker, and does not occur anywhere in the assembled HTML
branch, only in the plain branch — refuting the claim that such lines are
embedded in the HTML output. -/
theorem assembleTexts_premarker_counterexample :
    containsSub (str "zq") (assembleTexts (str "C\n-- \nzq\n<html>\nH\n</html>\n")).2 = false ∧
    containsSub (str "zq") (assembleTexts (str "C\n-- \nzq\n<html>\nH\n</html>\n")).1 = true ∧
    hasSigHtml (split_content (str "C\n-- \nzq\n<html>\nH\n</html>\n")).2 = true := by
  exact ⟨by rfl, by rfl, by rfl⟩

/-! ### Image substitution (C7): the resolver rewrites one tag in context -/

theorem matchImgStart_ne {c : Char} (l : List Char) (hc : c ≠ '<') :
    matchImgStart (c :: l) = none := by
  unfold matchImgStart
  split
  · rename_i heq
    injection heq with h1 _
    exact absurd h1 hc
  · rfl

theorem searchImg_none_of_no_lt :
    ∀ (s : List Char), (∀ c ∈ s, c ≠ '<') → searchImg s = none := by
  intro s
  induction s with
  | nil => intro _; rfl
  | cons c rest ih =>
    intro hs
    have hm : matchImgStart (c :: rest) = none :=
      matchImgStart_ne rest (hs c (List.mem_cons_self c rest))
    have hr : searchImg rest = none :=
      ih (fun d hd => hs d (List.mem_cons_of_mem c hd))
    simp [searchImg, hm, hr]

theorem searchImg_append (p : List Char) :
    ∀ (s : List Char) (g1 g2 g3 r : List Char),
      (∀ c ∈ p, c ≠ '<') → matchImgStart s = some (g1, g2, g3, r) →
      searchImg (p ++ s) = some (p, g1, g2, g3, r) := by
  induction p with
  | nil =>
    intro s g1 g2 g3 r _ hm
    cases s with
    | nil => simp [matchImgStart] at hm
    | cons c rest => simp [searchImg, hm]
  | cons c p' ih =>
    intro s g1 g2 g3 r hp hm
    have hmc : matchImgStart (c :: (p' ++ s)) = none :=
      matchImgStart_ne _ (hp c (List.mem_cons_self c p'))
    have hr := ih s g1 g2 g3 r (fun d hd => hp d (List.mem_cons_of_mem c hd)) hm
    simp [searchImg, hmc, hr]

theorem subImgAux_no_match (env : Env) {s : List Char} (hs : searchImg s = none) :
    ∀ (fuel : Nat) (st : RState), subImgAux env fuel st s = (st, .ok s) := by
  intro fuel st
  cases fuel with
  | zero => rfl
  | succ n => simp [subImgAux, hs]

/-- The concrete tag `<img src="logo.png">` matches the pattern at its head
for any continuation. -/
theorem matchImgStart_logo (post : List Char) :
    matchImgStart (str "<img src=\"logo.png\">" ++ post) =
      some (str "<img src=\"", str "logo.png", str "\">", post) := rfl

/-- Claim C7: if the formatter's text is `<img src="logo.png">` in any
img-tag-free context and `logo.png` is readable in the image directory, the
resolve pass succeeds; it rewrites only the tag's src value, to `cid:` plus
the minted Content-ID with its angle brackets stripped, appends exactly one
attachment carrying the file's bytes under that Content-ID, and advances the
part counter once. -/
theorem create_mime_attachments_resolves (env : Env)
    (pre post b : List Char) (atts : List EMsg) (n : Nat)
    (hpre : ∀ c ∈ pre, c ≠ '<') (hpost : ∀ c ∈ post, c ≠ '<')
    (hfs : env.fs (env.imagepath ++ str "/logo.png") = some b) :
    create_mime_attachments env
      { txt := pre ++ (str "<img src=\"logo.png\">" ++ post),
        attachments := atts, parts := n } =
    ({ txt := pre ++ str "<img src=\"" ++
          (str "cid:" ++ pyStrip (str "<>") (mkMsgid n)) ++ str "\">" ++ post,
       attachments := atts ++ [MIMEImagePart env b (mkMsgid n) (str "logo.png")],
       parts := n + 1 }, none) := by
  have hsearch : searchImg (pre ++ (str "<img src=\"logo.png\">" ++ post)) =
      some (pre, str "<img src=\"", str "logo.png", str "\">", post) :=
    searchImg_append pre _ _ _ _ _ hpre (matchImgStart_logo post)
  have hrepl : replacer env { attachments := atts, parts := n } (str "logo.png") =
      .ok ({ attachments := atts ++ [MIMEImagePart env b (mkMsgid n) (str "logo.png")],
             parts := n + 1 },
           str "cid:" ++ pyStrip (str "<>") (mkMsgid n)) := by
    have hfile : env.imagepath ++ '/' :: pyBasename ((pyUrlparse (str "logo.png")).path) =
        env.imagepath ++ str "/logo.png" := rfl
    unfold replacer
    simp only []
    rw [hfile, hfs]
    rfl
  have hpostsearch : searchImg post = none := searchImg_none_of_no_lt post hpost
  obtain ⟨k, hk⟩ : ∃ k, (pre ++ (str "<img src=\"logo.png\">" ++ post)).length = k + 1 := by
    refine ⟨pre.length + 19 + post.length, ?_⟩
    have h20 : (str "<img src=\"logo.png\">").length = 20 := by decide
    simp [List.length_append, h20]
    omega
  unfold create_mime_attachments
  rw [hk]
  simp only [subImgAux, hsearch, hrepl, subImgAux_no_match env hpostsearch]

/-- An image directory containing exactly `logo.png`. -/
def envLogo : Env :=
  { fs := fun nm =>
      if nm = str "/var/lib/html_footer/logo.png" then some (str "IMAGEBYTES")
      else none,
    imagepath := str "/var/lib/html_footer",
    imgSubtype := fun _ => str "png" }

/-- Witness for `create_mime_attachments_resolves` at a concrete context and
image directory. -/
theorem create_mime_attachments_resolves_witness :
    ((∀ c ∈ str "x ", c ≠ '<') ∧ (∀ c ∈ str " y", c ≠ '<') ∧
     envLogo.fs (envLogo.imagepath ++ str "/logo.png") = some (str "IMAGEBYTES")) ∧
    create_mime_attachments envLogo
      { txt := str "x " ++ (str "<img src=\"logo.png\">" ++ str " y"),
        attachments := [], parts := 1 } =
    ({ txt := str "x " ++ str "<img src=\"" ++
          (str "cid:" ++ pyStrip (str "<>") (mkMsgid 1)) ++ str "\">" ++ str " y",
       attachments := [MIMEImagePart envLogo (str "IMAGEBYTES") (mkMsgid 1) (str "logo.png")],
       parts := 1 + 1 }, none) :=
  ⟨⟨by decide, by decide, by decide⟩,
   by
     have h := create_mime_attachments_resolves envLogo (str "x ") (str " y")
       (str "IMAGEBYTES") [] 1 (by decide) (by decide) (by decide)
     simpa using h⟩

/-! ### Missing image: the whole rewrite fails, the text is untouched (C8) -/

/-- The single-part eligible body whose embedded html references
`missing.png`. -/
def bodyC8 : List Char :=
  str "Hi\n-- \n<html>\n<img src=\"missing.png\">\n</html>\n"

theorem subImgAux_first_fail (env : Env) (fuel : Nat) (st : RState)
    (s p g1 g2 g3 r e : List Char)
    (hsearch : searchImg s = some (p, g1, g2, g3, r))
    (hrep : replacer env st g2 = .error e) (hfuel : 0 < fuel) :
    subImgAux env fuel st s = (st, .error e) := by
  cases fuel with
  | zero => omega
  | succ k => simp [subImgAux, hsearch, hrep]

theorem create_mime_attachments_fail (env : Env) (h : HTF)
    (p g1 g2 g3 r e : List Char)
    (hsearch : searchImg h.txt = some (p, g1, g2, g3, r))
    (hrep : replacer env { attachments := h.attachments, parts := h.parts } g2 =
      .error e)
    (hpos : 0 < h.txt.length) :
    create_mime_attachments env h =
      ({ txt := h.txt, attachments := h.attachments, parts := h.parts }, some e) := by
  unfold create_mime_attachments
  rw [subImgAux_first_fail env h.txt.length _ h.txt p g1 g2 g3 r e hsearch hrep hpos]

/-- Claim C8: when the eligible message's html references `missing.png` and
that file cannot be opened, the whole rewrite fails with an error and no
message is produced, and the resolve pass run on the assembled formatter
state leaves `self.txt` unchanged (no partially substituted HTML ever
exists).  The error that aborts `new_payload` is in fact the
`has_attachments` TypeError (see C2), which fires before the resolver; the
resolver itself, run on that state, also fails and leaves the text intact. -/
theorem rewrite_missing_image_fails (env : Env)
    (hfs : env.fs (env.imagepath ++ str "/missing.png") = none) :
    new_payload env (.leaf [] (str "text/plain") bodyC8) =
      .error (str "TypeError: tuple indices must be integers, not tuple") ∧
    modify_data env (.leaf [] (str "text/plain") bodyC8) =
      .error (str "TypeError: tuple indices must be integers, not tuple") ∧
    create_mime_attachments env
      { txt := (assembleTexts bodyC8).2, attachments := [], parts := 1 } =
    ({ txt := (assembleTexts bodyC8).2, attachments := [], parts := 1 },
     some (str "IOError: cannot open " ++ (env.imagepath ++ str "/missing.png"))) := by
  refine ⟨rfl, rfl, ?_⟩
  have hsearch : searchImg ((assembleTexts bodyC8).2) =
      some (HTML_HEADER ++ txt2html (str "Hi\n"), str "<img src=\"",
        str "missing.png", str "\">", str "\n" ++ txt2html (str "\n")) := rfl
  have hrep : replacer env { attachments := [], parts := 1 } (str "missing.png") =
      .error (str "IOError: cannot open " ++ (env.imagepath ++ str "/missing.png")) := by
    have hfile : env.imagepath ++ '/' :: pyBasename ((pyUrlparse (str "missing.png")).path) =
        env.imagepath ++ str "/missing.png" := rfl
    unfold replacer
    simp only []
    rw [hfile, hfs]
  exact create_mime_attachments_fail env _ _ _ _ _ _ _ hsearch hrep (by decide)

/-- Witness for `rewrite_missing_image_fails`: the empty image directory. -/
theorem rewrite_missing_image_fails_witness :
    env0.fs (env0.imagepath ++ str "/missing.png") = none ∧
    new_payload env0 (.leaf [] (str "text/plain") bodyC8) =
      .error (str "TypeError: tuple indices must be integers, not tuple") :=
  ⟨by decide, (rewrite_missing_image_fails env0 (by decide)).1⟩

/-! ### Multipart rewriting (C9) -/

/-- Claim C9 (amended): when `new_payload` succeeds on the first text/plain
child, `_process_multi` replaces exactly that child in place — the second
child and the container's headers and subtype are untouched — and
`alter_message` additionally appends the `X-Modified-By` header to the root.
(When `new_payload` raises — e.g. the assembled html contains an `<img>`
tag, see C2 — the rewrite produces no message at all; see the
counterexample.) -/
theorem process_multi_replaces_first_plain (env : Env)
    (h : List (List Char × List Char)) (sub : List Char)
    (hp : List (List Char × List Char)) (payload : List Char)
    (pdf : EMsg) (np : EMsg)
    (hnp : new_payload env (.leaf hp (str "text/plain") payload) = .ok np) :
    process_multi env (.multi h sub [.leaf hp (str "text/plain") payload, pdf]) =
      .ok (.multi h sub [np, pdf]) ∧
    alter_message env (.multi h sub [.leaf hp (str "text/plain") payload, pdf]) =
      .ok (.multi (h ++ [(str "X-Modified-By", str "Html Footer 20120227")]) sub
        [np, pdf]) := by
  have hidx : ([EMsg.leaf hp (str "text/plain") payload, pdf].findIdx
      (fun c => get_content_type c = str "text/plain")) = 0 := by
    simp [List.findIdx_cons, get_content_type]
  have h1 : process_multi env (.multi h sub [.leaf hp (str "text/plain") payload, pdf]) =
      .ok (.multi h sub [np, pdf]) := by
    unfold process_multi
    simp only [hidx]
    simp [hnp, List.set, Except.map]
  exact ⟨h1, by simp [alter_message, X_HEADER, h1, addXHeader, Except.map]⟩

/-- The text/plain part used in the C9 witness. -/
def pC9 : EMsg := .leaf [] (str "text/plain") (str "Hi\n-- \n<html>\nZ\n</html>\n")

/-- What `new_payload` produces for `pC9`. -/
def npC9 : EMsg :=
  .multi [] (str "alternative")
    [.leaf [] (str "text/plain") (str "Hi\n-- \n\n"),
     .leaf [] (str "text/html")
       (HTML_HEADER ++ txt2html (str "Hi\n") ++ str "Z\n" ++ txt2html (str "\n") ++
        HTML_FOOTER)]

/-- Witness for `process_multi_replaces_first_plain`: a concrete
`[text/plain, application/pdf]` container. -/
theorem process_multi_replaces_first_plain_witness :
    new_payload env0 pC9 = .ok npC9 ∧
    process_multi env0 (.multi [] (str "mixed")
        [pC9, .leaf [] (str "application/pdf") (str "PDFDATA")]) =
      .ok (.multi [] (str "mixed")
        [npC9, .leaf [] (str "application/pdf") (str "PDFDATA")]) := by
  have hnp : new_payload env0 pC9 = .ok npC9 := rfl
  exact ⟨hnp, (process_multi_replaces_first_plain env0 [] (str "mixed") []
    (str "Hi\n-- \n<html>\nZ\n</html>\n")
    (.leaf [] (str "application/pdf") (str "PDFDATA")) npC9 hnp).1⟩

/-- An eligible `[text/plain, application/pdf]` message whose signature html
references an image. -/
def mC9bad : EMsg :=
  .multi [] (str "mixed")
    [.leaf [] (str "text/plain") bodyC8,
     .leaf [] (str "application/pdf") (str "PDFDATA")]

/-- Claim C9 (counterexample): an eligible multipart message with children
`[text/plain, application/pdf]` on which the rewrite produces *no* output
tree at all — the plain child's signature html contains an `<img>` tag, so
`has_attachments` raises (see C2) and `modify_data` propagates the error
instead of yielding `[multipart/alternative, application/pdf]`. -/
theorem modify_data_multipart_img_counterexample :
    modify_data env0 mC9bad =
      .error (str "TypeError: tuple indices must be integers, not tuple") ∧
    ∀ m', modify_data env0 mC9bad ≠ .ok m' := by
  have h1 : modify_data env0 mC9bad =
      .error (str "TypeError: tuple indices must be integers, not tuple") := rfl
  refine ⟨h1, fun m' hm => ?_⟩
  rw [h1] at hm
  exact Except.noConfusion hm

end HtmlFooter
